import Mathlib

/-!
Shallow embedding of the dddice Demiplane extension roll pipeline
(source: src/demiplane.tsx) and verification of the frozen claims.

JavaScript conventions used in the model:
- JS numbers appearing in rolls are modelled as `Int` (the code only adds,
  negates, takes absolute values and compares them).
- JS `undefined` / missing fields are modelled as `Option`.
- JS strings are modelled as `String`; the string methods used by the code
  (`startsWith`, `substring`, `trim`) are modelled over `String.data` so the
  definitions stay kernel-evaluable.
- JS truthiness on numbers (0 is falsy), strings (the empty string is falsy)
  and objects (always truthy, `undefined` falsy) is modelled explicitly by the
  js* helper functions below.
-/

namespace Demiplane

/-- Value of a modifier entry: the TS type is `number | string`. -/
inductive ModValue
  | num (n : Int)
  | str (s : String)
deriving DecidableEq

/-- One entry of `modifiersParsed` (field `rollString` is never read by the
processing code and is elided). -/
structure ModifierEntry where
  purpose : String
  value : ModValue
deriving DecidableEq

/-- The TS union `ModifierEntry[] | ModifierEntry[][] | ModifierEntry`.
`Array.isArray` distinguishes `one` from the other two; code that indexes or
iterates then behaves differently on `list` and `groups`. -/
inductive ModifiersParsed
  | one (m : ModifierEntry)
  | list (ms : List ModifierEntry)
  | groups (gs : List (List ModifierEntry))
deriving DecidableEq

/-- The `config` object of a die in `result.dice` / `results[].dice`.
Only the fields actually read by the adapters (`name`, `isNegative`) are
modelled; `priority`, `dieSlug`, `slug`, `image`, `rerollable` and
`overrideValue` are never read and are elided. -/
structure DieConfig where
  name : String
  isNegative : Option Bool
deriving DecidableEq

/-- A die of `result.dice` or `results[].dice`. Fields `id`, `maxValue` and
`is_kept` are never read by the adapters and are elided. -/
structure ResultDie where
  die : String
  value : Int
  slug : String
  originalValue : Option Int
  groupSlug : Option String
  config : DieConfig
deriving DecidableEq

/-- The `status` object of a roll result; only `slug` is read. -/
structure RollStatus where
  slug : String
deriving DecidableEq

/-- One entry of `roll.results`; only `dice` and `total` are read. -/
structure ResultGroup where
  dice : List ResultDie
  total : Int
deriving DecidableEq

/-- A die inside a `raw_dice.parts` entry of type `dice`; only `type`,
`value` and `size` are read. -/
structure PartDie where
  type : String
  value : Int
  size : Nat
deriving DecidableEq

/-- One entry of `result.raw_dice.parts`. The TS record is discriminated on
its `type` string (`dice` / `operator` / `constant`, anything else ignored);
the parts walker reads `part.dice` and `part.num_dice` on `dice` parts, a
string `part.value` on `operator` parts and a numeric `part.value` on
`constant` parts. -/
inductive RawPart
  | dicePart (numDice : Option Int) (dice : List PartDie)
  | operatorPart (value : String)
  | constantPart (value : Int)
  | otherPart
deriving DecidableEq

/-- The `result` object of a roll. `maxTotal`, `crit` and `error` are never
read by the adapters and are elided; `raw_dice` holds only its `parts`. -/
structure RollResult where
  dice : Option (List ResultDie)
  total : Int
  status : Option RollStatus
  rawDiceParts : Option (List RawPart)
deriving DecidableEq

/-- One entry of the top-level `roll.dice` array; only `slug` and `type` are
read (`type` carries the keep-highest / keep-lowest marker). -/
structure TopDie where
  slug : String
  type : Option String
deriving DecidableEq

/-- The roll record read from the localStorage history (interface DiceRoll).
Fields never read by the modelled code (`roll`, `rerolled`, `type`) are
elided. -/
structure DiceRoll where
  name : String
  dice : Option (List TopDie)
  modifiersParsed : Option ModifiersParsed
  results : Option (List ResultGroup)
  result : RollResult
  origin : Option String
deriving DecidableEq

/-- The normalized die record pushed into `diceArray` by the adapters. -/
structure NormalizedDie where
  type : String
  value : Int
  theme : Option String
  label : Option String
  groupSlug : Option String
deriving DecidableEq

/-- Operator descriptor attached to a roll submission. The code builds plain
objects; the shapes occurring are the empty object, the keep marker under
key k (h1 or l1), the sign-inversion index list under the star/minus-one
keys, and the spread-merge of the last two, so the model keeps the two
possible keys. -/
structure OperatorDescriptor where
  k : Option String
  signInv : Option (List Nat)
deriving DecidableEq

/-- Return value of `processDice`. -/
structure ProcessResult where
  dice : List NormalizedDie
  operator : OperatorDescriptor
  plotDice : Option NormalizedDie
deriving DecidableEq

/-- JS `a || b` for a possibly-undefined number `a`: 0 and undefined are
falsy. -/
def jsOrInt (a : Option Int) (b : Int) : Int :=
  match a with
  | some x => if x != 0 then x else b
  | none => b

/-- JS `a || b` for a possibly-undefined string `a`: the empty string and
undefined are falsy. -/
def jsOrStr (a : Option String) (b : String) : String :=
  match a with
  | some s => if s != "" then s else b
  | none => b

/-- JS `!a` for a possibly-undefined string. -/
def jsStrFalsy (a : Option String) : Bool :=
  match a with
  | some s => s == ""
  | none => true

/-- JS truthiness of a possibly-undefined number. -/
def optIntTruthy (a : Option Int) : Bool :=
  match a with
  | some v => v != 0
  | none => false

/-- JS string rendering of a modifier value inside a template literal. -/
def mvToString : ModValue → String
  | .num n => toString n
  | .str s => s

/-- JS truthiness of a modifier value. -/
def mvTruthy : ModValue → Bool
  | .num n => n != 0
  | .str s => s != ""

/-- Model of JS `s.startsWith(p)` over the character list. -/
def strStartsWith (s p : String) : Bool :=
  p.data.isPrefixOf s.data

/-- Model of JS `s.substring(n)` over the character list. -/
def strDropChars (s : String) (n : Nat) : String :=
  ⟨s.data.drop n⟩

/-- Model of JS `s.trim()` over the character list. -/
def strTrim (s : String) : String :=
  ⟨((s.data.dropWhile Char.isWhitespace).reverse.dropWhile Char.isWhitespace).reverse⟩

/-! ## Base adapter (baseConfig) -/

/-- getRollName of baseConfig: the roll name plus an optional origin in
parentheses. -/
def baseGetRollName (roll : DiceRoll) : String :=
  roll.name ++ (match roll.origin with
    | some o => " (" ++ o ++ ")"
    | none => "")

/-- One iteration of the `roll.result.dice.forEach` loop of
baseConfig.processDice: a negative non-mod die is pushed with its absolute
value and its index recorded in `negativeIndices`; otherwise the die is
pushed as-is, with type collapsed to `mod` unless the value is strictly
positive. -/
def baseDieStep (acc : List NormalizedDie × List Nat) (die : ResultDie) :
    List NormalizedDie × List Nat :=
  let dieIndex := acc.1.length
  if die.value < 0 ∧ die.die ≠ "mod" then
    (acc.1 ++ [⟨die.die, |die.value|, none, none, none⟩], acc.2 ++ [dieIndex])
  else
    (acc.1 ++ [⟨if die.value > 0 then die.die else "mod", die.value, none, none, none⟩], acc.2)

/-- The find-first-add-purpose step of
baseConfig.processDice, guarded by `Array.isArray(roll.modifiersParsed)`.
When `modifiersParsed` is the nested-groups array, `Array.isArray` is still
true but every element is itself an array whose `purpose` is undefined, so
the find yields nothing; the single-object case fails the isArray guard. -/
def findAddModifier : Option ModifiersParsed → Option ModifierEntry
  | some (.list ms) => ms.find? (fun m => m.purpose == "add")
  | _ => none

/-- The conditional push of a flat `mod` entry for the found add modifier:
only when the modifier exists, its value is a number, and that number is
nonzero. -/
def addModEntry (m : Option ModifierEntry) : List NormalizedDie :=
  match m with
  | some a =>
    match a.value with
    | .num v => if v ≠ 0 then [⟨"mod", v, none, none, none⟩] else []
    | .str _ => []
  | none => []

/-- Accumulator of the `raw_dice.parts` walker: the dice array, the negative
indices, and the current arithmetic sign (`lastOperator`). -/
structure PartsAcc where
  arr : List NormalizedDie
  neg : List Nat
  lastOp : String
deriving DecidableEq

/-- One iteration of the inner `for (const die of part.dice)` loop of the
parts walker: only `single_dice` entries are pushed, labelled
`${num_dice}d${size}`, and the current sign records the index when it is
`-`. -/
def partsDieStep (numDice : Option Int) (acc : PartsAcc) (die : PartDie) : PartsAcc :=
  if die.type = "single_dice" then
    let dieIndex := acc.arr.length
    let label := (match numDice with
      | some n => toString n
      | none => "undefined") ++ "d" ++ toString die.size
    { arr := acc.arr ++ [⟨"d" ++ toString die.size, die.value, none, some label, none⟩],
      neg := if acc.lastOp = "-" then acc.neg ++ [dieIndex] else acc.neg,
      lastOp := acc.lastOp }
  else acc

/-- One iteration of the outer `for (const part of roll.result.raw_dice.parts)`
loop: dice parts push their single dice, a nonempty string operator part
updates the current sign, a constant part pushes a flat `mod` whose value is
negated under a `-` sign. -/
def partStep (acc : PartsAcc) (part : RawPart) : PartsAcc :=
  match part with
  | .dicePart numDice pdice => pdice.foldl (partsDieStep numDice) acc
  | .operatorPart v => if v ≠ "" then { acc with lastOp := v } else acc
  | .constantPart v =>
      { acc with arr := acc.arr ++ [⟨"mod", if acc.lastOp = "-" then -v else v, none, none, none⟩] }
  | .otherPart => acc

/-- processDice of baseConfig. The `raw_dice.parts` path is taken whenever
`parts` is present (a present empty array is truthy in JS); otherwise the
`result.dice` path runs the per-die loop and then appends the parsed add
modifier; otherwise both arrays stay empty. The operator carries the
sign-inversion entry exactly when `negativeIndices` is nonempty. -/
def baseProcessDice (roll : DiceRoll) : ProcessResult :=
  let acc : List NormalizedDie × List Nat :=
    match roll.result.rawDiceParts with
    | some parts =>
      let a := parts.foldl partStep ⟨[], [], "+"⟩
      (a.arr, a.neg)
    | none =>
      match roll.result.dice with
      | some ds =>
        let a := ds.foldl baseDieStep ([], [])
        (a.1 ++ addModEntry (findAddModifier roll.modifiersParsed), a.2)
      | none => ([], [])
  let operator : OperatorDescriptor :=
    if acc.2 ≠ [] then ⟨none, some acc.2⟩ else ⟨none, none⟩
  ⟨acc.1, operator, none⟩

/-! ## Avatar Legends adapter -/

/-- getTypeResult of the AVATARLEGENDS config: hit tiers on the result
total. -/
def avatarGetTypeResult (roll : DiceRoll) : String :=
  if roll.result.total > 10 then " (strong hit)"
  else if roll.result.total > 7 then " (weak hit)"
  else " (miss)"

/-! ## Daggerheart adapter -/

/-- getTypeResult of the DAGGERHEART config: keyed on the result status
slug. -/
def dhGetTypeResult (roll : DiceRoll) : String :=
  match roll.result.status with
  | some st =>
    if st.slug = "critical-success" then " Critical Success!"
    else if st.slug = "roll-with-hope" then " with Hope"
    else if st.slug = "roll-with-fear" then " with Fear"
    else ""
  | none => ""

/-- One iteration of the `roll.result.dice.forEach` loop of the DAGGERHEART
processDice: identical to the base step except that each pushed die carries
`label = die.config.name`. -/
def dhDieStep (acc : List NormalizedDie × List Nat) (die : ResultDie) :
    List NormalizedDie × List Nat :=
  let label := die.config.name
  let dieIndex := acc.1.length
  if die.value < 0 ∧ die.die ≠ "mod" then
    (acc.1 ++ [⟨die.die, |die.value|, none, some label, none⟩], acc.2 ++ [dieIndex])
  else
    (acc.1 ++ [⟨if die.value > 0 then die.die else "mod", die.value, none, some label, none⟩],
      acc.2)

/-- The modifier handling of the DAGGERHEART processDice: the array case
matches the base adapter; a single non-array object with purpose `add` and a
nonzero numeric value is also pushed; the nested-groups array finds no entry
with purpose `add` (its elements are arrays). -/
def dhAddEntry : Option ModifiersParsed → List NormalizedDie
  | none => []
  | some (.list ms) => addModEntry (ms.find? (fun m => m.purpose == "add"))
  | some (.groups _) => []
  | some (.one m) =>
    if m.purpose = "add" then
      match m.value with
      | .num v => if v ≠ 0 then [⟨"mod", v, none, none, none⟩] else []
      | .str _ => []
    else []

/-- processDice of the DAGGERHEART config. The source dereferences
`roll.result.dice` without a guard, so a roll without that array throws; the
model returns `none` in that case. -/
def dhProcessDice (roll : DiceRoll) : Option ProcessResult :=
  match roll.result.dice with
  | none => none
  | some ds =>
    let a := ds.foldl dhDieStep ([], [])
    let arr := a.1 ++ dhAddEntry roll.modifiersParsed
    let operator : OperatorDescriptor :=
      if a.2 ≠ [] then ⟨none, some a.2⟩ else ⟨none, none⟩
    some ⟨arr, operator, none⟩

/-! ## Cosmere RPG adapter -/

/-- getRollName of the COSMERERPG config: when `modifiersParsed` is an array
whose first element is itself an array, the label is built from the first
`misc` modifier and the first `misc` modifier with a different value,
provided both values are truthy; otherwise the roll name is used. When
`modifiersParsed` is a flat array its first element is a non-array object,
and when it is a single object `Array.isArray` fails, so both fall back to
the name. -/
def cosmereGetRollName (roll : DiceRoll) : String :=
  match roll.modifiersParsed with
  | some (.groups gs) =>
    match gs.head? with
    | some mods =>
      let purposeModifier := mods.find? (fun m => m.purpose == "misc")
      let nameModifier := mods.find? (fun m =>
        m.purpose == "misc" &&
          (match purposeModifier with
           | some p => m.value != p.value
           | none => true))
      match purposeModifier, nameModifier with
      | some p, some n =>
        if mvTruthy p.value && mvTruthy n.value then
          mvToString p.value ++ ": " ++ mvToString n.value
        else roll.name
      | _, _ => roll.name
    | none => roll.name
  | _ => roll.name

/-- The plot-slug lookup over the optional top-level dice array of the COSMERERPG
getTypeResult. -/
def cosmerePlotDie (roll : DiceRoll) : Option TopDie :=
  (roll.dice.getD []).find? (fun d => d.slug == "plot")

/-- The plot-die face value computed by the COSMERERPG getTypeResult: first
from `results[0].dice`, then, when that value is falsy, from `result.dice`;
each lookup takes `originalValue || value`. -/
def cosmerePlotDieValue (roll : DiceRoll) : Option Int :=
  let fromResults : Option Int :=
    match roll.results with
    | some rs =>
      if rs.length > 0 then
        match rs.head? with
        | some r => (r.dice.find? (fun d => d.slug == "plot")).map
            (fun d => jsOrInt d.originalValue d.value)
        | none => none
      else none
    | none => none
  if !optIntTruthy fromResults then
    match roll.result.dice with
    | some ds => (ds.find? (fun d => d.slug == "plot")).map
        (fun d => jsOrInt d.originalValue d.value)
    | none => fromResults
  else fromResults

/-- The status-slug fallback at the end of the COSMERERPG getTypeResult. -/
def cosmereStatusSuffix (roll : DiceRoll) : String :=
  match roll.result.status with
  | some st =>
    if st.slug = "opportunity" then " Opportunity!"
    else if st.slug = "complication" then " Complications"
    else ""
  | none => ""

/-- getTypeResult of the COSMERERPG config: the die-face check runs first,
guarded by the presence of a plot die and a truthy face value; faces 5 and 6
give the opportunity suffix, 1 and 2 the complication suffix; every other
outcome falls through to the status-slug checks. -/
def cosmereGetTypeResult (roll : DiceRoll) : String :=
  let plotDie := cosmerePlotDie roll
  let plotDieValue := cosmerePlotDieValue roll
  if plotDie.isSome && optIntTruthy plotDieValue then
    let v := plotDieValue.getD 0
    if v = 5 ∨ v = 6 then " with Opportunity!"
    else if v = 1 ∨ v = 2 then " with Complications"
    else cosmereStatusSuffix roll
  else cosmereStatusSuffix roll

/-- Accumulator of the COSMERERPG processDice loops: the dice array, the
negative indices and the plot-die slot (the source mutates a `plotDice`
variable). -/
structure CosAcc where
  arr : List NormalizedDie
  neg : List Nat
  plot : Option NormalizedDie
deriving DecidableEq

/-- One iteration of the inner `result.dice.forEach` loop of the COSMERERPG
results path (`index` is the enclosing group index). A plot die overwrites
the plot slot; other dice are pushed with a group slug defaulting to the
main group for the first result group and the damage group otherwise.
Negative non-mod dice are pushed with their absolute value and recorded;
note that the fallback type here collapses to `mod` on negative values
(unlike the base adapter, which collapses on non-positive values). -/
def cosResultDieStep (index : Nat) (acc : CosAcc) (die : ResultDie) : CosAcc :=
  let label := die.config.name
  let isPlotDie := die.slug == "plot"
  let groupSlug := jsOrStr die.groupSlug
    (if index = 0 then "main-d20-group" else "damage-group")
  if isPlotDie then
    { acc with plot := some ⟨"setback", jsOrInt die.originalValue die.value, none,
        some "Plot Die", some "plot-die"⟩ }
  else
    let dieIndex := acc.arr.length
    if die.value < 0 ∧ die.die ≠ "mod" then
      { acc with
          arr := acc.arr ++ [⟨die.die, |die.value|, none, some label, some groupSlug⟩],
          neg := acc.neg ++ [dieIndex] }
    else
      { acc with
          arr := acc.arr ++ [⟨if die.value < 0 then "mod" else die.die, die.value, none,
            some label, some groupSlug⟩] }

/-- One iteration of the outer `roll.results.forEach` loop: process the
dice of the group, then, when `modifiersParsed` is the nested-groups array
and its entry at this index is an array, append its nonzero numeric add
modifier tagged with the group slug of this index. A flat modifier array
also passes `Array.isArray(roll.modifiersParsed)`, but its entry at the
index is then a non-array object and is skipped. -/
def cosGroupStep (mp : Option ModifiersParsed) (acc : CosAcc) (p : Nat × ResultGroup) :
    CosAcc :=
  let acc := p.2.dice.foldl (cosResultDieStep p.1) acc
  match mp with
  | some (.groups gs) =>
    match gs[p.1]? with
    | some modGroup =>
      match modGroup.find? (fun m => m.purpose == "add") with
      | some a =>
        match a.value with
        | .num v =>
          if v ≠ 0 then
            { acc with arr := acc.arr ++ [⟨"mod", v, none, none,
                some (if p.1 = 0 then "main-d20-group" else "damage-group")⟩] }
          else acc
        | .str _ => acc
      | none => acc
    | none => acc
  | _ => acc

/-- One iteration of the `roll.result.dice.forEach` loop of the COSMERERPG
fallback path: the value is negated when `config.isNegative` is truthy, a
plot die fills the plot slot, a negative non-mod value is pushed with its
absolute value and recorded, and every other die is pushed with its type
unchanged (no `mod` collapse on this path). -/
def cosResultDicePathStep (acc : CosAcc) (die : ResultDie) : CosAcc :=
  let value := if die.config.isNegative.getD false then -die.value else die.value
  let label := die.config.name
  let isPlotDie := die.slug == "plot"
  if isPlotDie then
    { acc with plot := some ⟨"setback", jsOrInt die.originalValue value, none,
        some "Plot Die", some "plot-die"⟩ }
  else
    let dieIndex := acc.arr.length
    if value < 0 ∧ die.die ≠ "mod" then
      { acc with
          arr := acc.arr ++ [⟨die.die, |value|, none, some label, none⟩],
          neg := acc.neg ++ [dieIndex] }
    else
      { acc with arr := acc.arr ++ [⟨die.die, value, none, some label, none⟩] }

/-- processDice of the COSMERERPG config: a keep-highest / keep-lowest
marker among the top-level dice seeds the operator, the results path runs
when `roll.results` is present (even empty, which is truthy in JS), the
`result.dice` path otherwise, and a nonempty `negativeIndices` is spread
into the operator at the end. -/
def cosmereProcessDice (roll : DiceRoll) : ProcessResult :=
  let kOp : Option String :=
    match roll.dice with
    | some ds =>
      if ds.length > 0 then
        if ds.any (fun d => d.type == some "kh") then some "h1"
        else if ds.any (fun d => d.type == some "kl") then some "l1"
        else none
      else none
    | none => none
  let acc : CosAcc :=
    match roll.results with
    | some rs => rs.enum.foldl (cosGroupStep roll.modifiersParsed) ⟨[], [], none⟩
    | none =>
      match roll.result.dice with
      | some ds => ds.foldl cosResultDicePathStep ⟨[], [], none⟩
      | none => ⟨[], [], none⟩
  let operator : OperatorDescriptor :=
    if acc.neg ≠ [] then ⟨kOp, some acc.neg⟩ else ⟨kOp, none⟩
  ⟨acc.arr, operator, acc.plot⟩

/-! ## Roll submission (sendRollRequest, COSMERERPG branch) -/

/-- A theme as read from storage: its id and, when present, the ids of its
available dice. -/
structure Theme where
  id : String
  availableDice : Option (List String)
deriving DecidableEq

/-- One call to `dddice.api.roll.create`: the dice list, the label, and the
operator when one is passed in the options object. -/
structure RollCall where
  dice : List NormalizedDie
  label : String
  operator : Option OperatorDescriptor
deriving DecidableEq

/-- The theme-assignment loop of sendRollRequest for a non-Daggerheart
system: every die gets the default theme id. -/
def applyCosmereThemes (roll : List NormalizedDie) (defaultTheme : Option Theme) :
    List NormalizedDie :=
  roll.map (fun die => { die with theme := defaultTheme.map Theme.id })

/-- JS `a || b` on two possibly-undefined strings. -/
def jsOrOptStr (a b : Option String) : Option String :=
  match a with
  | some s => if s != "" then some s else b
  | none => b

/-- The plot-die preparation of the COSMERERPG branch of sendRollRequest:
theme from the plot-die theme falling back to the default theme, and die
type defaulting to `d6` unless the checked theme advertises a `setback`
die. -/
def resolvePlotDie (result : ProcessResult) (plotDieTheme defaultTheme : Option Theme) :
    Option NormalizedDie :=
  match result.plotDice with
  | none => none
  | some pd =>
    let pd := { pd with theme := jsOrOptStr (plotDieTheme.map Theme.id) (defaultTheme.map Theme.id) }
    let themeToCheck := match plotDieTheme with
      | some t => some t
      | none => defaultTheme
    match themeToCheck with
    | some t =>
      let pd := { pd with type := "d6" }
      let pd := match t.availableDice with
        | some ad => if ad.any (fun i => i == "setback") then { pd with type := "setback" }
            else pd
        | none => pd
      some pd
    | none => some pd

/-- The attack-dice filter of the split branch: dice of the main d20 group,
or dice with a falsy group slug (the second disjunct of the source,
a falsy group slug conjoined with a comparison against the damage group,
keeps the comparison
even though it is implied by falsiness). -/
def cosAttackFilter (die : NormalizedDie) : Bool :=
  die.groupSlug == some "main-d20-group" ||
    (jsStrFalsy die.groupSlug && die.groupSlug != some "damage-group")

/-- The damage-dice filter of the split branch. -/
def cosDamageFilter (die : NormalizedDie) : Bool :=
  die.groupSlug == some "damage-group"

/-- The label stem of the split branch: the roll name with a leading
`Attack Roll:` stripped and the remainder trimmed. -/
def cosBaseLabelText (baseLabel : String) : String :=
  if strStartsWith baseLabel "Attack Roll:" then
    strTrim (strDropChars baseLabel "Attack Roll:".length)
  else baseLabel

/-- The COSMERERPG branch of sendRollRequest, modelled as the ordered list
of `roll.create` calls it issues. `roll` is the dice list after theme
assignment; the branch recomputes `processDice` on the original roll for the
plot die, splits when the original roll has more than one result group, and
passes the operator only on the non-plot calls. -/
def cosmereSendCalls (roll : List NormalizedDie) (originalRoll : DiceRoll)
    (operator : OperatorDescriptor) (defaultTheme plotDieTheme : Option Theme) :
    List RollCall :=
  let result := cosmereProcessDice originalRoll
  let baseLabel := cosmereGetRollName originalRoll
  let plotDie := resolvePlotDie result plotDieTheme defaultTheme
  let shouldSplitRoll : Bool := match originalRoll.results with
    | some rs => decide (rs.length > 1)
    | none => false
  if shouldSplitRoll then
    let attackDice := roll.filter cosAttackFilter
    let baseLabelText := cosBaseLabelText baseLabel
    let attackCalls := if attackDice.length > 0 then
        [⟨attackDice, "Attack Roll: " ++ baseLabelText, some operator⟩] else []
    let damageDice := roll.filter cosDamageFilter
    let damageCalls := if damageDice.length > 0 then
        [⟨damageDice, "Damage Roll: " ++ baseLabelText, some operator⟩] else []
    let plotCalls := match plotDie with
      | some pd => [⟨[pd], "Plot Die: " ++ baseLabelText ++ cosmereGetTypeResult originalRoll,
          none⟩]
      | none => []
    attackCalls ++ damageCalls ++ plotCalls
  else
    match plotDie with
    | some pd =>
      let mainDice := roll.filter (fun die => die.groupSlug != some "plot-die")
      let mainCalls := if mainDice.length > 0 then
          [⟨mainDice, baseLabel ++ cosmereGetTypeResult originalRoll, some operator⟩] else []
      mainCalls ++ [⟨[pd], baseLabel ++ cosmereGetTypeResult originalRoll, none⟩]
    | none => [⟨roll, baseLabel ++ cosmereGetTypeResult originalRoll, some operator⟩]

/-! ## localStorage watcher (watchLocalStorage) -/

/-- State of the storage watcher: the last observed roll-history array
(`lastRolls`), `none` when no parseable history has been observed. -/
structure WatcherState where
  lastRolls : Option (List DiceRoll)
deriving DecidableEq

/-- The baseline initialization of watchLocalStorage: the history read at
attach time becomes `lastRolls` without any processing. -/
def initWatcher (initialRead : Option (List DiceRoll)) : WatcherState :=
  ⟨initialRead⟩

/-- One tick of `checkForNewRolls`: an unreadable history is skipped; a roll
is processed exactly when no prior observation exists or the array head
exists and its deep-compared serialization differs from the previous head
(JSON.stringify equality is modelled as structural equality); on such a tick
the head is processed, when present, and `lastRolls` is replaced. -/
def checkForNewRolls (s : WatcherState) (read : Option (List DiceRoll)) :
    WatcherState × Option DiceRoll :=
  match read with
  | none => (s, none)
  | some currentRolls =>
    let isNew : Bool :=
      match s.lastRolls with
      | none => true
      | some lastRolls =>
        match currentRolls.head? with
        | some h => decide (some h ≠ lastRolls.head?)
        | none => false
    if isNew then (⟨some currentRolls⟩, currentRolls.head?)
    else (s, none)

/-- Watcher attachment: the baseline read followed by the initial
`checkForNewRolls` call on the same storage contents. -/
def watchAttach (initialRead : Option (List DiceRoll)) :
    WatcherState × Option DiceRoll :=
  checkForNewRolls (initWatcher initialRead) initialRead

/-! ## Participant sync (updateParticipantName) -/

/-- The resolved dddice user; only the uuid is read. -/
structure UserRec where
  uuid : String
deriving DecidableEq

/-- A room participant; the nested `user.uuid` is flattened to
`userUuid`. -/
structure Participant where
  userUuid : String
  username : String
deriving DecidableEq

/-- The stored room; only `slug` and `participants` are read. -/
structure Room where
  slug : String
  participants : List Participant
deriving DecidableEq

/-- Outcome of updateParticipantName when it returns normally. -/
inductive SyncOutcome
  | noUser
  | noSelector
  | noRoom
  | updated (username : Option String)
  | noChange
deriving DecidableEq

/-- updateParticipantName: the stored room, the resolved user (none when the
user fetch fails, which returns early), the character-name selector of the
active game config, and the text content found under that selector. After
the participant lookup the source logs `userParticipant.username` before
checking that the participant exists, so a missing participant throws a
TypeError, modelled as `Except.error`; otherwise the username is updated
exactly when it differs from the found character name. -/
def updateParticipantName (room : Option Room) (user : Option UserRec)
    (characterNameSelector : Option String) (characterName : Option String) :
    Except String SyncOutcome :=
  match user with
  | none => .ok .noUser
  | some u =>
    match characterNameSelector with
    | none => .ok .noSelector
    | some _ =>
      match room with
      | none => .ok .noRoom
      | some r =>
        let userParticipant := r.participants.find? (fun p => p.userUuid == u.uuid)
        match userParticipant with
        | none => .error "TypeError: cannot read properties of undefined"
        | some p =>
          if some p.username ≠ characterName then .ok (.updated characterName)
          else .ok .noChange

/-! ## Specification-side helper definitions used by the theorems -/

/-- Specification view of one die normalized by the base adapter on the
`result.dice` path. -/
def baseNorm (die : ResultDie) : NormalizedDie :=
  if die.value < 0 ∧ die.die ≠ "mod" then ⟨die.die, |die.value|, none, none, none⟩
  else ⟨if die.value > 0 then die.die else "mod", die.value, none, none, none⟩

/-- Specification view of one die normalized by the Daggerheart adapter. -/
def dhNorm (die : ResultDie) : NormalizedDie :=
  if die.value < 0 ∧ die.die ≠ "mod" then
    ⟨die.die, |die.value|, none, some die.config.name, none⟩
  else ⟨if die.value > 0 then die.die else "mod", die.value, none, some die.config.name, none⟩

/-- Indices recorded as sign-inverted by the base and Daggerheart loops,
counting from `k`. -/
def negIdxFrom (k : Nat) : List ResultDie → List Nat
  | [] => []
  | d :: ds => (if d.value < 0 ∧ d.die ≠ "mod" then [k] else []) ++ negIdxFrom (k + 1) ds

/-- The add modifier the Daggerheart modifier handling acts on: the first
list entry with purpose `add` in the array case, the single object itself in
the non-array case when its purpose is `add`. -/
def dhFoundAdd : Option ModifiersParsed → Option ModifierEntry
  | some (.list ms) => ms.find? (fun m => m.purpose == "add")
  | some (.one m) => if m.purpose = "add" then some m else none
  | _ => none

/-- Removal of every add-purpose modifier, used to state the amended C8. -/
def removeAddModifiers : Option ModifiersParsed → Option ModifiersParsed
  | some (.list ms) => some (.list (ms.filter (fun m => m.purpose != "add")))
  | some (.one m) => if m.purpose = "add" then none else some (.one m)
  | x => x

/-- A minimal roll carrying only a result total, used to instantiate the
hit-tier theorem. -/
def mkTotalRoll (t : Int) : DiceRoll :=
  ⟨"", none, none, none, ⟨none, t, none, none⟩, none⟩

/-- The raw roll of the spec example scenario: one d20 with raw value -3
whose config name is Fear, and a flat add modifier of 2. The history entry
stores the dice under `result.dice`, which is the array the base adapter
reads. -/
def specExampleRoll : DiceRoll :=
  ⟨"Roll", none, some (.list [⟨"add", .num 2⟩]), none,
    ⟨some [⟨"d20", -3, "", none, none, ⟨"Fear", none⟩⟩], -1, none, none⟩, none⟩

/-- A roll whose modifier list holds an add modifier of value 0 followed by
an add modifier of value 5. -/
def c8ZeroAddRoll : DiceRoll :=
  ⟨"R", none, some (.list [⟨"add", .num 0⟩, ⟨"add", .num 5⟩]), none,
    ⟨some [], 0, none, none⟩, none⟩

/-- The same roll with only the zero-valued add modifier removed. -/
def c8ZeroAddRollRemoved : DiceRoll :=
  ⟨"R", none, some (.list [⟨"add", .num 5⟩]), none,
    ⟨some [], 0, none, none⟩, none⟩

/-- A Cosmere roll with two result groups whose damage die rolled a negative
raw value: the d20 lands in the main group and the d6 in the damage
group. -/
def cosSplitNegRoll : DiceRoll :=
  ⟨"Strike", none, none,
    some [⟨[⟨"d20", 5, "atk", none, none, ⟨"Attack", none⟩⟩], 5⟩,
          ⟨[⟨"d6", -3, "dmg", none, none, ⟨"Damage", none⟩⟩], -3⟩],
    ⟨none, 2, none, none⟩, none⟩

/-- A Cosmere roll with three result groups, one positive die each, and no
plot die. -/
def cosThreeGroupRoll : DiceRoll :=
  ⟨"Test", none, none,
    some [⟨[⟨"d20", 7, "x", none, none, ⟨"A", none⟩⟩], 7⟩,
          ⟨[⟨"d6", 4, "y", none, none, ⟨"B", none⟩⟩], 4⟩,
          ⟨[⟨"d8", 2, "z", none, none, ⟨"C", none⟩⟩], 2⟩],
    ⟨none, 13, none, none⟩, none⟩

/-- A Cosmere roll carrying a plot die that rolled a 6 while the result
status says complication: the die-face check decides first. -/
def cosPlotSixRoll : DiceRoll :=
  ⟨"T", some [⟨"plot", none⟩], none,
    some [⟨[⟨"d6", 6, "plot", none, none, ⟨"P", none⟩⟩], 6⟩],
    ⟨none, 6, some ⟨"complication"⟩, none⟩, none⟩

/-- A Cosmere roll with no plot die and an opportunity status slug. -/
def cosStatusOnlyRoll : DiceRoll :=
  ⟨"T", none, none, none, ⟨none, 0, some ⟨"opportunity"⟩, none⟩, none⟩

/-! ## Characterization lemmas for the adapter loops -/

theorem foldl_baseDieStep (ds : List ResultDie) (arr : List NormalizedDie) (neg : List Nat) :
    ds.foldl baseDieStep (arr, neg) =
      (arr ++ ds.map baseNorm, neg ++ negIdxFrom arr.length ds) := by
  induction ds generalizing arr neg with
  | nil => simp [negIdxFrom]
  | cons d ds ih =>
    rw [List.foldl_cons]
    by_cases h : d.value < 0 ∧ d.die ≠ "mod"
    · simp only [baseDieStep, if_pos h, ih, baseNorm, negIdxFrom, List.map_cons]
      simp [List.length_append]
    · simp only [baseDieStep, if_neg h, ih, baseNorm, negIdxFrom, List.map_cons]
      simp [List.length_append]

theorem foldl_dhDieStep (ds : List ResultDie) (arr : List NormalizedDie) (neg : List Nat) :
    ds.foldl dhDieStep (arr, neg) =
      (arr ++ ds.map dhNorm, neg ++ negIdxFrom arr.length ds) := by
  induction ds generalizing arr neg with
  | nil => simp [negIdxFrom]
  | cons d ds ih =>
    rw [List.foldl_cons]
    by_cases h : d.value < 0 ∧ d.die ≠ "mod"
    · simp only [dhDieStep, if_pos h, ih, dhNorm, negIdxFrom, List.map_cons]
      simp [List.length_append]
    · simp only [dhDieStep, if_neg h, ih, dhNorm, negIdxFrom, List.map_cons]
      simp [List.length_append]

theorem mem_negIdxFrom (k j : Nat) (ds : List ResultDie) (d : ResultDie)
    (hd : ds[j]? = some d) (h : d.value < 0 ∧ d.die ≠ "mod") :
    (k + j) ∈ negIdxFrom k ds := by
  induction ds generalizing k j with
  | nil => simp at hd
  | cons e ds ih =>
    cases j with
    | zero =>
      rw [List.getElem?_cons_zero] at hd
      injection hd with hd
      subst hd
      simp [negIdxFrom, if_pos h]
    | succ j =>
      rw [List.getElem?_cons_succ] at hd
      have hmem := ih (k + 1) j hd
      have hk : k + (j + 1) = (k + 1) + j := by omega
      rw [hk]
      simp only [negIdxFrom, List.mem_append]
      right
      exact hmem

/-! ## Claim theorems -/

/-- C1: on the `result.dice` path of the base and Daggerheart adapters, a
raw die with negative value and non-mod die kind appears at its own index in
the normalized list with its die kind and absolute value (hence never as a
flat `mod` entry), and that index is a member of the sign-inversion set of
the operator descriptor. -/
theorem c1_negative_die_sign_inversion (roll : DiceRoll) (ds : List ResultDie)
    (i : Nat) (d : ResultDie)
    (hparts : roll.result.rawDiceParts = none)
    (hdice : roll.result.dice = some ds)
    (hd : ds[i]? = some d)
    (hneg : d.value < 0) (hmod : d.die ≠ "mod") :
    ((baseProcessDice roll).dice[i]? = some ⟨d.die, |d.value|, none, none, none⟩ ∧
      ∃ l, (baseProcessDice roll).operator.signInv = some l ∧ i ∈ l) ∧
    (∀ pr, dhProcessDice roll = some pr →
      pr.dice[i]? = some ⟨d.die, |d.value|, none, some d.config.name, none⟩ ∧
      ∃ l, pr.operator.signInv = some l ∧ i ∈ l) := by
  have hi : i < ds.length := (List.getElem?_eq_some.mp hd).1
  have hmem : i ∈ negIdxFrom 0 ds := by
    have := mem_negIdxFrom 0 i ds d hd ⟨hneg, hmod⟩
    simpa using this
  have hne : negIdxFrom 0 ds ≠ [] := List.ne_nil_of_mem hmem
  constructor
  · unfold baseProcessDice
    rw [hparts, hdice]
    simp only [foldl_baseDieStep, List.nil_append, List.length_nil]
    constructor
    · rw [List.getElem?_append_left (by simpa using hi), List.getElem?_map, hd]
      simp [baseNorm, if_pos (And.intro hneg hmod)]
    · exact ⟨negIdxFrom 0 ds, by simp [if_pos hne], hmem⟩
  · intro pr hpr
    unfold dhProcessDice at hpr
    rw [hdice] at hpr
    simp only [foldl_dhDieStep, List.nil_append, List.length_nil] at hpr
    injection hpr with hpr
    subst hpr
    constructor
    · rw [List.getElem?_append_left (by simpa using hi), List.getElem?_map, hd]
      simp [dhNorm, if_pos (And.intro hneg hmod)]
    · exact ⟨negIdxFrom 0 ds, by simp [if_pos hne], hmem⟩

/-- C1 witness: the base-adapter half of C1 applied to a one-die roll whose
d20 rolled -3. -/
theorem c1_witness :
    (baseProcessDice specExampleRoll).dice[0]? =
        some ⟨"d20", |(-3 : Int)|, none, none, none⟩ ∧
      ∃ l, (baseProcessDice specExampleRoll).operator.signInv = some l ∧ 0 ∈ l :=
  (c1_negative_die_sign_inversion specExampleRoll
    [⟨"d20", -3, "", none, none, ⟨"Fear", none⟩⟩] 0
    ⟨"d20", -3, "", none, none, ⟨"Fear", none⟩⟩ rfl rfl rfl (by decide) (by decide)).1

/-- C9: on the `result.dice` path of the base and Daggerheart adapters, a
raw die with value exactly 0 and non-mod die kind is emitted as a `mod`-type
entry with value 0, dropping the die kind even though the value is not
negative. -/
theorem c9_zero_value_die_collapses_to_mod (roll : DiceRoll) (ds : List ResultDie)
    (i : Nat) (d : ResultDie)
    (hparts : roll.result.rawDiceParts = none)
    (hdice : roll.result.dice = some ds)
    (hd : ds[i]? = some d)
    (hzero : d.value = 0) (hmod : d.die ≠ "mod") :
    (baseProcessDice roll).dice[i]? = some ⟨"mod", 0, none, none, none⟩ ∧
    (∀ pr, dhProcessDice roll = some pr →
      pr.dice[i]? = some ⟨"mod", 0, none, some d.config.name, none⟩) := by
  have hi : i < ds.length := (List.getElem?_eq_some.mp hd).1
  have hcond : ¬(d.value < 0 ∧ d.die ≠ "mod") := by
    intro h
    rw [hzero] at h
    exact absurd h.1 (by norm_num)
  constructor
  · unfold baseProcessDice
    rw [hparts, hdice]
    simp only [foldl_baseDieStep, List.nil_append]
    rw [List.getElem?_append_left (by simpa using hi), List.getElem?_map, hd]
    simp [baseNorm, if_neg hcond, hzero]
  · intro pr hpr
    unfold dhProcessDice at hpr
    rw [hdice] at hpr
    simp only [foldl_dhDieStep, List.nil_append] at hpr
    injection hpr with hpr
    subst hpr
    rw [List.getElem?_append_left (by simpa using hi), List.getElem?_map, hd]
    simp [dhNorm, if_neg hcond, hzero]

/-- C9 witness: the base-adapter half of C9 applied to a one-die roll whose
d20 rolled exactly 0. -/
theorem c9_witness :
    (baseProcessDice
      ⟨"W", none, none, none,
        ⟨some [⟨"d20", 0, "", none, none, ⟨"Luck", none⟩⟩], 0, none, none⟩, none⟩).dice[0]? =
      some ⟨"mod", 0, none, none, none⟩ :=
  (c9_zero_value_die_collapses_to_mod
    ⟨"W", none, none, none,
      ⟨some [⟨"d20", 0, "", none, none, ⟨"Luck", none⟩⟩], 0, none, none⟩, none⟩
    [⟨"d20", 0, "", none, none, ⟨"Luck", none⟩⟩] 0
    ⟨"d20", 0, "", none, none, ⟨"Luck", none⟩⟩ rfl rfl rfl rfl (by decide)).1

/-- C4 counterexample: on the spec example roll the base adapter emits the
d20 entry without any label, so the output differs from the claimed dice
list, whose first entry carries label Fear. The Daggerheart adapter, not the
base one, is the adapter that attaches `config.name` as a label on this
path. -/
theorem c4_counterexample :
    (baseProcessDice specExampleRoll).dice ≠
      [⟨"d20", 3, none, some "Fear", none⟩, ⟨"mod", 2, none, none, none⟩] := by
  decide

/-- C4 amended: the spec example roll under the base adapter yields the d20
as absolute value 3 and the add modifier as a flat mod entry 2, with
sign-inversion operator on index 0 — but with no label on either entry. -/
theorem c4_amended_example_scenario :
    baseProcessDice specExampleRoll =
      ⟨[⟨"d20", 3, none, none, none⟩, ⟨"mod", 2, none, none, none⟩],
        ⟨none, some [0]⟩, none⟩ := by
  decide

/-- C6: the Avatar Legends getTypeResult returns the strong-hit suffix for a
result total strictly above 10, the weak-hit suffix for a total in (7, 10],
and the miss suffix otherwise. -/
theorem c6_avatar_hit_tiers (roll : DiceRoll) :
    (10 < roll.result.total → avatarGetTypeResult roll = " (strong hit)") ∧
    (7 < roll.result.total → roll.result.total ≤ 10 →
      avatarGetTypeResult roll = " (weak hit)") ∧
    (roll.result.total ≤ 7 → avatarGetTypeResult roll = " (miss)") := by
  unfold avatarGetTypeResult
  refine ⟨fun h => ?_, fun h1 h2 => ?_, fun h => ?_⟩
  · rw [if_pos h]
  · rw [if_neg (by omega), if_pos h1]
  · rw [if_neg (by omega), if_neg (by omega)]

/-- C6 witness: the three tiers at totals 11, 9 and 3. -/
theorem c6_witness :
    avatarGetTypeResult (mkTotalRoll 11) = " (strong hit)" ∧
    avatarGetTypeResult (mkTotalRoll 9) = " (weak hit)" ∧
    avatarGetTypeResult (mkTotalRoll 3) = " (miss)" :=
  ⟨(c6_avatar_hit_tiers (mkTotalRoll 11)).1 (by decide),
   (c6_avatar_hit_tiers (mkTotalRoll 9)).2.1 (by decide) (by decide),
   (c6_avatar_hit_tiers (mkTotalRoll 3)).2.2 (by decide)⟩

/-- C7: the Cosmere getTypeResult decides opportunity and complication from
the plot-die face first — a present plot die with a truthy face value of 5
or 6 yields the opportunity suffix and 1 or 2 the complication suffix,
regardless of the status slug — and falls back to the status-slug
classification exactly when the die-face check does not decide. -/
theorem c7_plot_die_precedence (roll : DiceRoll) :
    ((cosmerePlotDie roll).isSome = true →
      ((cosmerePlotDieValue roll = some 5 ∨ cosmerePlotDieValue roll = some 6) →
        cosmereGetTypeResult roll = " with Opportunity!") ∧
      ((cosmerePlotDieValue roll = some 1 ∨ cosmerePlotDieValue roll = some 2) →
        cosmereGetTypeResult roll = " with Complications")) ∧
    (¬((cosmerePlotDie roll).isSome = true ∧ optIntTruthy (cosmerePlotDieValue roll) = true ∧
        ((cosmerePlotDieValue roll).getD 0 = 1 ∨ (cosmerePlotDieValue roll).getD 0 = 2 ∨
          (cosmerePlotDieValue roll).getD 0 = 5 ∨ (cosmerePlotDieValue roll).getD 0 = 6)) →
      cosmereGetTypeResult roll = cosmereStatusSuffix roll) := by
  constructor
  · intro hp
    constructor
    · intro hv
      rcases hv with h | h <;> simp [cosmereGetTypeResult, hp, h, optIntTruthy]
    · intro hv
      rcases hv with h | h <;> simp [cosmereGetTypeResult, hp, h, optIntTruthy]
  · intro hno
    by_cases hA : (cosmerePlotDie roll).isSome = true
    · by_cases hB : optIntTruthy (cosmerePlotDieValue roll) = true
      · push_neg at hno
        have hC := hno hA hB
        simp [cosmereGetTypeResult, hA, hB, hC.1, hC.2.1, hC.2.2.1, hC.2.2.2]
      · simp only [Bool.not_eq_true] at hB
        simp [cosmereGetTypeResult, hB]
    · simp only [Bool.not_eq_true] at hA
      simp [cosmereGetTypeResult, hA]

/-- C7 witness: a plot die showing 6 wins over a complication status, and a
roll without a plot die falls back to its opportunity status slug. -/
theorem c7_witness :
    cosmereGetTypeResult cosPlotSixRoll = " with Opportunity!" ∧
    cosmereGetTypeResult cosStatusOnlyRoll = " Opportunity!" :=
  ⟨((c7_plot_die_precedence cosPlotSixRoll).1 (by decide)).1 (Or.inr (by decide)),
   ((c7_plot_die_precedence cosStatusOnlyRoll).2 (by decide)).trans (by decide)⟩

/-- The Daggerheart modifier handling reduces to addModEntry of the found
add modifier. -/
theorem dhAddEntry_eq_addModEntry (mp : Option ModifiersParsed) :
    dhAddEntry mp = addModEntry (dhFoundAdd mp) := by
  match mp with
  | none => rfl
  | some (.list ms) => rfl
  | some (.groups gs) => rfl
  | some (.one m) =>
    simp only [dhAddEntry, dhFoundAdd]
    by_cases h : m.purpose = "add"
    · rw [if_pos h, if_pos h]
      rfl
    · rw [if_neg h, if_neg h]
      rfl

/-- After removing every add-purpose modifier the base find yields
nothing. -/
theorem findAddModifier_removeAddModifiers (mp : Option ModifiersParsed) :
    findAddModifier (removeAddModifiers mp) = none := by
  match mp with
  | none => rfl
  | some (.groups gs) => rfl
  | some (.one m) =>
    simp only [removeAddModifiers]
    by_cases h : m.purpose = "add"
    · rw [if_pos h]
      rfl
    · rw [if_neg h]
      rfl
  | some (.list ms) =>
    simp only [removeAddModifiers, findAddModifier]
    refine List.find?_eq_none.mpr (fun m hm => ?_)
    have := (List.mem_filter.mp hm).2
    simpa using this

/-- After removing every add-purpose modifier the Daggerheart find yields
nothing. -/
theorem dhFoundAdd_removeAddModifiers (mp : Option ModifiersParsed) :
    dhFoundAdd (removeAddModifiers mp) = none := by
  match mp with
  | none => rfl
  | some (.groups gs) => rfl
  | some (.one m) =>
    simp only [removeAddModifiers]
    by_cases h : m.purpose = "add"
    · rw [if_pos h]
      rfl
    · rw [if_neg h]
      simp only [dhFoundAdd]
      rw [if_neg h]
  | some (.list ms) =>
    simp only [removeAddModifiers, dhFoundAdd]
    refine List.find?_eq_none.mpr (fun m hm => ?_)
    have := (List.mem_filter.mp hm).2
    simpa using this

/-- Evaluation of the base processDice on an explicit roll record whose
result carries a dice array and no raw-dice parts. -/
theorem baseProcessDice_resultDice (name : String) (dice : Option (List TopDie))
    (mp : Option ModifiersParsed) (results : Option (List ResultGroup))
    (total : Int) (status : Option RollStatus) (origin : Option String)
    (ds : List ResultDie) :
    baseProcessDice ⟨name, dice, mp, results, ⟨some ds, total, status, none⟩, origin⟩ =
      ⟨ds.map baseNorm ++ addModEntry (findAddModifier mp),
        if negIdxFrom 0 ds ≠ [] then ⟨none, some (negIdxFrom 0 ds)⟩ else ⟨none, none⟩,
        none⟩ := by
  unfold baseProcessDice
  simp only [foldl_baseDieStep, List.nil_append, List.length_nil]

/-- Evaluation of the Daggerheart processDice on an explicit roll record
whose result carries a dice array. -/
theorem dhProcessDice_resultDice (name : String) (dice : Option (List TopDie))
    (mp : Option ModifiersParsed) (results : Option (List ResultGroup))
    (total : Int) (status : Option RollStatus) (rparts : Option (List RawPart))
    (origin : Option String) (ds : List ResultDie) :
    dhProcessDice ⟨name, dice, mp, results, ⟨some ds, total, status, rparts⟩, origin⟩ =
      some ⟨ds.map dhNorm ++ dhAddEntry mp,
        if negIdxFrom 0 ds ≠ [] then ⟨none, some (negIdxFrom 0 ds)⟩ else ⟨none, none⟩,
        none⟩ := by
  unfold dhProcessDice
  simp only [foldl_dhDieStep, List.nil_append, List.length_nil]

/-- An add-modifier slot whose value is missing, non-numeric or zero
produces no entry. -/
theorem addModEntry_eq_nil (mo : Option ModifierEntry)
    (h : ∀ m v, mo = some m → m.value = ModValue.num v → v = 0) :
    addModEntry mo = [] := by
  match mo with
  | none => rfl
  | some m =>
    match hv : m.value with
    | .num v =>
      have hz := h m v rfl hv
      simp [addModEntry, hv, hz]
    | .str s => simp [addModEntry, hv]

/-- An add-modifier slot holding a nonzero numeric value produces exactly
one flat mod entry. -/
theorem addModEntry_eq_single (m : ModifierEntry) (v : Int)
    (hv : m.value = ModValue.num v) (hnz : v ≠ 0) :
    addModEntry (some m) = [⟨"mod", v, none, none, none⟩] := by
  simp [addModEntry, hv, hnz]

/-- C8 amended: on the `result.dice` path of the base and Daggerheart
adapters, a missing, non-numeric or zero add modifier appends no mod entry,
a present nonzero numeric add modifier appends exactly one, and in the
zero case the output equals the output with every add-purpose modifier
removed. (The original claim compared against removing only the zero
modifier itself; that fails when a second add modifier follows, because the
find then reaches it.) -/
theorem c8_zero_add_modifier (roll : DiceRoll) (ds : List ResultDie)
    (hparts : roll.result.rawDiceParts = none)
    (hdice : roll.result.dice = some ds) :
    ((∀ m v, findAddModifier roll.modifiersParsed = some m → m.value = ModValue.num v → v = 0) →
      (baseProcessDice roll).dice = ds.map baseNorm) ∧
    (∀ m v, findAddModifier roll.modifiersParsed = some m → m.value = ModValue.num v → v ≠ 0 →
      (baseProcessDice roll).dice = ds.map baseNorm ++ [⟨"mod", v, none, none, none⟩]) ∧
    ((∀ m v, findAddModifier roll.modifiersParsed = some m → m.value = ModValue.num v → v = 0) →
      baseProcessDice roll =
        baseProcessDice { roll with modifiersParsed := removeAddModifiers roll.modifiersParsed }) ∧
    ((∀ m v, dhFoundAdd roll.modifiersParsed = some m → m.value = ModValue.num v → v = 0) →
      ∀ pr, dhProcessDice roll = some pr → pr.dice = ds.map dhNorm) ∧
    (∀ m v, dhFoundAdd roll.modifiersParsed = some m → m.value = ModValue.num v → v ≠ 0 →
      ∀ pr, dhProcessDice roll = some pr →
        pr.dice = ds.map dhNorm ++ [⟨"mod", v, none, none, none⟩]) ∧
    ((∀ m v, dhFoundAdd roll.modifiersParsed = some m → m.value = ModValue.num v → v = 0) →
      dhProcessDice roll =
        dhProcessDice { roll with modifiersParsed := removeAddModifiers roll.modifiersParsed }) := by
  obtain ⟨n, dc, mp, rs, res, o⟩ := roll
  obtain ⟨rdice, t, st, rparts⟩ := res
  simp only at hparts hdice
  subst hparts
  subst hdice
  dsimp only
  refine ⟨?_, ?_, ?_, ?_, ?_, ?_⟩
  · intro h
    rw [baseProcessDice_resultDice, addModEntry_eq_nil _ h, List.append_nil]
  · intro m v hm hv hnz
    rw [baseProcessDice_resultDice, hm, addModEntry_eq_single m v hv hnz]
  · intro h
    show baseProcessDice ⟨n, dc, mp, rs, ⟨some ds, t, st, none⟩, o⟩ =
      baseProcessDice ⟨n, dc, removeAddModifiers mp, rs, ⟨some ds, t, st, none⟩, o⟩
    rw [baseProcessDice_resultDice, baseProcessDice_resultDice,
      addModEntry_eq_nil _ h, findAddModifier_removeAddModifiers]
    rfl
  · intro h pr hpr
    rw [dhProcessDice_resultDice] at hpr
    injection hpr with hpr
    subst hpr
    rw [dhAddEntry_eq_addModEntry, addModEntry_eq_nil _ h, List.append_nil]
  · intro m v hm hv hnz pr hpr
    rw [dhProcessDice_resultDice] at hpr
    injection hpr with hpr
    subst hpr
    rw [dhAddEntry_eq_addModEntry, hm, addModEntry_eq_single m v hv hnz]
  · intro h
    show dhProcessDice ⟨n, dc, mp, rs, ⟨some ds, t, st, none⟩, o⟩ =
      dhProcessDice ⟨n, dc, removeAddModifiers mp, rs, ⟨some ds, t, st, none⟩, o⟩
    rw [dhProcessDice_resultDice, dhProcessDice_resultDice,
      dhAddEntry_eq_addModEntry, addModEntry_eq_nil _ h,
      dhAddEntry_eq_addModEntry, dhFoundAdd_removeAddModifiers]
    rfl

/-- C8 counterexample: with modifier list [add 0, add 5] the zero entry is
found first and nothing is appended, but removing only that zero entry lets
the find reach the add 5, which appends a mod entry — so the output with the
zero add modifier differs from the output with that modifier removed. -/
theorem c8_counterexample :
    (baseProcessDice c8ZeroAddRoll).dice = [] ∧
    (baseProcessDice c8ZeroAddRollRemoved).dice = [⟨"mod", 5, none, none, none⟩] ∧
    baseProcessDice c8ZeroAddRoll ≠ baseProcessDice c8ZeroAddRollRemoved := by
  decide

/-- C8 witness: the zero-add clause applied to the roll holding a
zero-valued add modifier. -/
theorem c8_witness :
    (baseProcessDice c8ZeroAddRoll).dice = ([] : List ResultDie).map baseNorm :=
  (c8_zero_add_modifier c8ZeroAddRoll [] rfl rfl).1 (by
    intro m v hm hv
    have hm2 : m = ⟨"add", ModValue.num 0⟩ := by
      have h0 : (some ⟨"add", ModValue.num 0⟩ : Option ModifierEntry) = some m := by
        rw [← hm]
        rfl
      exact (Option.some.inj h0).symm
    subst hm2
    injection hv with h
    exact h.symm)

/-- C5: the storage watcher never replays pre-existing history. On attach
the stored history becomes the baseline and the immediate initial check
processes nothing; afterwards a tick processes a roll exactly when the
freshly read array has a head and either no prior observation exists or the
head differs (by deep value comparison) from the previously observed head;
and any processed roll is the head of the freshly read array. -/
theorem c5_watcher_baseline_no_replay (l : List DiceRoll) (s : WatcherState)
    (read : Option (List DiceRoll)) :
    watchAttach (some l) = (⟨some l⟩, none) ∧
    ((checkForNewRolls s read).2.isSome = true ↔
      ∃ c h, read = some c ∧ c.head? = some h ∧
        (s.lastRolls = none ∨ ∃ lr, s.lastRolls = some lr ∧ some h ≠ lr.head?)) ∧
    (∀ r, (checkForNewRolls s read).2 = some r → ∃ c, read = some c ∧ c.head? = some r) := by
  have hnone : ∀ c, s.lastRolls = none →
      checkForNewRolls s (some c) = (⟨some c⟩, c.head?) := by
    intro c hlr
    simp [checkForNewRolls, hlr]
  have hstale : ∀ c lr h, s.lastRolls = some lr → c.head? = some h → some h = lr.head? →
      checkForNewRolls s (some c) = (s, none) := by
    intro c lr h hlr hc hne
    have hd : decide (some h ≠ lr.head?) = false := decide_eq_false (not_not_intro hne)
    simp [checkForNewRolls, hlr, hc, hd]
  have hfresh : ∀ c lr h, s.lastRolls = some lr → c.head? = some h → some h ≠ lr.head? →
      checkForNewRolls s (some c) = (⟨some c⟩, c.head?) := by
    intro c lr h hlr hc hne
    simp [checkForNewRolls, hlr, hc, hne]
  have hempty : ∀ c lr, s.lastRolls = some lr → c.head? = none →
      checkForNewRolls s (some c) = (s, none) := by
    intro c lr hlr hc
    simp [checkForNewRolls, hlr, hc]
  refine ⟨?_, ?_, ?_⟩
  · cases l with
    | nil => rfl
    | cons a l =>
      simp only [watchAttach, initWatcher, checkForNewRolls, List.head?_cons]
      simp
  · cases read with
    | none =>
      constructor
      · intro hx
        exact absurd hx (by simp [checkForNewRolls])
      · rintro ⟨c, h, hcc, -, -⟩
        exact absurd hcc (by simp)
    | some c =>
      cases hlr : s.lastRolls with
      | none =>
        rw [hnone c hlr]
        simp [hlr, Option.isSome_iff_exists]
      | some lr =>
        cases hc : c.head? with
        | none =>
          rw [hempty c lr hlr hc]
          simp [hlr, hc]
        | some h =>
          by_cases hne : some h = lr.head?
          · rw [hstale c lr h hlr hc hne]
            simp only [Option.isSome_none, Bool.false_eq_true, false_iff]
            rintro ⟨c2, h2, hcc, hh2, hdisj⟩
            injection hcc with hcc
            subst hcc
            rw [hc] at hh2
            injection hh2 with hh2
            subst hh2
            rcases hdisj with hd | ⟨lr2, hlr2, hd⟩
            · exact Option.noConfusion hd
            · injection hlr2 with hlr2
              subst hlr2
              exact hd hne
          · rw [hfresh c lr h hlr hc hne]
            rw [hc]
            simp only [Option.isSome_some, true_iff]
            exact ⟨c, h, rfl, hc, Or.inr ⟨lr, rfl, hne⟩⟩
  · intro r hr
    cases read with
    | none => simp [checkForNewRolls] at hr
    | some c =>
      refine ⟨c, rfl, ?_⟩
      cases hlr : s.lastRolls with
      | none =>
        rw [hnone c hlr] at hr
        exact hr
      | some lr =>
        cases hc : c.head? with
        | none =>
          rw [hempty c lr hlr hc] at hr
          exact absurd hr (by simp)
        | some h =>
          by_cases hne : some h = lr.head?
          · rw [hstale c lr h hlr hc hne] at hr
            exact absurd hr (by simp)
          · rw [hfresh c lr h hlr hc hne] at hr
            rw [hc] at hr
            exact hr

/-- C5 witness: a tick from a baseline observing one roll, reading a
history with a new head, processes exactly that head. -/
theorem c5_witness :
    ∃ c, (some [mkTotalRoll 2, mkTotalRoll 1] : Option (List DiceRoll)) = some c ∧
      c.head? = some (mkTotalRoll 2) :=
  (c5_watcher_baseline_no_replay [] ⟨some [mkTotalRoll 1]⟩
    (some [mkTotalRoll 2, mkTotalRoll 1])).2.2 (mkTotalRoll 2) (by decide)

/-- C10: when a room is stored, the user identity resolves, and the active
game system defines a character-name selector, but no participant in the
stored room matches the current user uuid, updateParticipantName throws
(the username field of the missing participant record is dereferenced
before its existence is checked) instead of silently doing nothing. -/
theorem c10_missing_participant_throws (r : Room) (u : UserRec) (sel : String)
    (cn : Option String)
    (h : ∀ p ∈ r.participants, p.userUuid ≠ u.uuid) :
    updateParticipantName (some r) (some u) (some sel) cn =
      .error "TypeError: cannot read properties of undefined" := by
  have hf : r.participants.find? (fun p => p.userUuid == u.uuid) = none :=
    List.find?_eq_none.mpr (fun p hp => by simpa using h p hp)
  simp [updateParticipantName, hf]

/-- C10 witness: a room whose only participant belongs to another user. -/
theorem c10_witness :
    updateParticipantName (some ⟨"room", [⟨"u2", "Bob"⟩]⟩) (some ⟨"u1"⟩)
      (some ".character-name") (some "Alice") =
      .error "TypeError: cannot read properties of undefined" :=
  c10_missing_participant_throws ⟨"room", [⟨"u2", "Bob"⟩]⟩ ⟨"u1"⟩ ".character-name"
    (some "Alice") (by decide)

/-- Head character of an attack-roll label. -/
theorem attack_label_head (t : String) : ("Attack Roll: " ++ t).data.headD ' ' = 'A' := rfl

/-- Head character of a damage-roll label. -/
theorem damage_label_head (t : String) : ("Damage Roll: " ++ t).data.headD ' ' = 'D' := rfl

/-- Head character of a plot-die label. -/
theorem plot_label_head (t u : String) : ("Plot Die: " ++ t ++ u).data.headD ' ' = 'P' := rfl

/-- Attack and damage labels are always distinct. -/
theorem attack_ne_damage_label (t u : String) :
    ("Attack Roll: " ++ t) ≠ ("Damage Roll: " ++ u) := by
  intro h
  have h3 : ("Attack Roll: " ++ t).data.headD ' ' = ("Damage Roll: " ++ u).data.headD ' ' := by
    rw [h]
  rw [attack_label_head, damage_label_head] at h3
  exact absurd h3 (by decide)

/-- Attack and plot labels are always distinct. -/
theorem attack_ne_plot_label (t u r : String) :
    ("Attack Roll: " ++ t) ≠ ("Plot Die: " ++ u ++ r) := by
  intro h
  have h3 : ("Attack Roll: " ++ t).data.headD ' ' = ("Plot Die: " ++ u ++ r).data.headD ' ' := by
    rw [h]
  rw [attack_label_head, plot_label_head] at h3
  exact absurd h3 (by decide)

/-- Damage and plot labels are always distinct. -/
theorem damage_ne_plot_label (t u r : String) :
    ("Damage Roll: " ++ t) ≠ ("Plot Die: " ++ u ++ r) := by
  intro h
  have h3 : ("Damage Roll: " ++ t).data.headD ' ' = ("Plot Die: " ++ u ++ r).data.headD ' ' := by
    rw [h]
  rw [damage_label_head, plot_label_head] at h3
  exact absurd h3 (by decide)

/-- C2: on the split Cosmere roll with a negative damage die, the
sign-inversion set computed over the whole normalized list (index 1) is
passed unchanged to both per-group calls, whose dice lists have a single
element each — so the index refers to no position of either submitted list:
the invariant that indices stay valid after the split is violated. -/
theorem c2_split_reuses_whole_roll_operator :
    (cosmereProcessDice cosSplitNegRoll).operator = ⟨none, some [1]⟩ ∧
    cosmereSendCalls (cosmereProcessDice cosSplitNegRoll).dice cosSplitNegRoll
        (cosmereProcessDice cosSplitNegRoll).operator none none =
      [⟨[⟨"d20", 5, none, some "Attack", some "main-d20-group"⟩],
          "Attack Roll: Strike", some ⟨none, some [1]⟩⟩,
       ⟨[⟨"d6", 3, none, some "Damage", some "damage-group"⟩],
          "Damage Roll: Strike", some ⟨none, some [1]⟩⟩] ∧
    ((cosmereSendCalls (cosmereProcessDice cosSplitNegRoll).dice cosSplitNegRoll
        (cosmereProcessDice cosSplitNegRoll).operator none none).map
      (fun c => c.dice[1]?)) = [none, none] := by
  decide

/-- C3 counterexample: a Cosmere roll with three result groups and no plot
die produces only two submission calls (every group after the first shares
the damage group), not one call per group. -/
theorem c3_counterexample :
    (cosThreeGroupRoll.results.getD []).length = 3 ∧
    (cosmereSendCalls (cosmereProcessDice cosThreeGroupRoll).dice cosThreeGroupRoll
      (cosmereProcessDice cosThreeGroupRoll).operator none none).length = 2 := by
  decide

/-- C3 amended: for a Cosmere roll with more than one result group the
submission issues, in order, one attack call when the attack-filtered dice
are nonempty, then one damage call when the damage-filtered dice are
nonempty (all groups after the first share the damage group), then one
plot-die call when a plot die is present; the operator is passed exactly on
the attack and damage calls and not on the plot call, and the labels of the
issued calls are pairwise distinct. -/
theorem c3_amended_split_calls (roll : List NormalizedDie) (originalRoll : DiceRoll)
    (op : OperatorDescriptor) (dt pt : Option Theme) (rs : List ResultGroup)
    (hres : originalRoll.results = some rs) (hsplit : 1 < rs.length) :
    cosmereSendCalls roll originalRoll op dt pt =
      (if (roll.filter cosAttackFilter).length > 0 then
        [⟨roll.filter cosAttackFilter,
          "Attack Roll: " ++ cosBaseLabelText (cosmereGetRollName originalRoll), some op⟩]
       else []) ++
      (if (roll.filter cosDamageFilter).length > 0 then
        [⟨roll.filter cosDamageFilter,
          "Damage Roll: " ++ cosBaseLabelText (cosmereGetRollName originalRoll), some op⟩]
       else []) ++
      (match resolvePlotDie (cosmereProcessDice originalRoll) pt dt with
       | some pd => [⟨[pd],
           "Plot Die: " ++ cosBaseLabelText (cosmereGetRollName originalRoll) ++
             cosmereGetTypeResult originalRoll, none⟩]
       | none => []) ∧
    ((cosmereSendCalls roll originalRoll op dt pt).map RollCall.label).Nodup := by
  have hcalls : cosmereSendCalls roll originalRoll op dt pt =
      (if (roll.filter cosAttackFilter).length > 0 then
        [⟨roll.filter cosAttackFilter,
          "Attack Roll: " ++ cosBaseLabelText (cosmereGetRollName originalRoll), some op⟩]
       else []) ++
      (if (roll.filter cosDamageFilter).length > 0 then
        [⟨roll.filter cosDamageFilter,
          "Damage Roll: " ++ cosBaseLabelText (cosmereGetRollName originalRoll), some op⟩]
       else []) ++
      (match resolvePlotDie (cosmereProcessDice originalRoll) pt dt with
       | some pd => [⟨[pd],
           "Plot Die: " ++ cosBaseLabelText (cosmereGetRollName originalRoll) ++
             cosmereGetTypeResult originalRoll, none⟩]
       | none => []) := by
    simp only [cosmereSendCalls, hres, hsplit, decide_true_eq_true]
    simp [hsplit]
  refine ⟨hcalls, ?_⟩
  rw [hcalls]
  by_cases h1 : (roll.filter cosAttackFilter).length > 0 <;>
    by_cases h2 : (roll.filter cosDamageFilter).length > 0 <;>
      cases h3 : resolvePlotDie (cosmereProcessDice originalRoll) pt dt <;>
        simp [h1, h2, h3, attack_ne_damage_label, attack_ne_plot_label, damage_ne_plot_label]

/-- C3 witness: the two-group Cosmere roll with a negative damage die has
pairwise distinct labels on its split calls. -/
theorem c3_witness :
    ((cosmereSendCalls (cosmereProcessDice cosSplitNegRoll).dice cosSplitNegRoll
      (cosmereProcessDice cosSplitNegRoll).operator none none).map RollCall.label).Nodup :=
  (c3_amended_split_calls (cosmereProcessDice cosSplitNegRoll).dice cosSplitNegRoll
    (cosmereProcessDice cosSplitNegRoll).operator none none
    [⟨[⟨"d20", 5, "atk", none, none, ⟨"Attack", none⟩⟩], 5⟩,
     ⟨[⟨"d6", -3, "dmg", none, none, ⟨"Damage", none⟩⟩], -3⟩]
    rfl (by decide)).2

end Demiplane
